import Mathlib

/-!
# datadog-metrics-processing: `queryAllMetrics` and `fetchAllData` (src/main.go)

A shallow embedding of the Go program and the properties its specification states.

Modelling conventions
* Go `int` is the 64-bit two's-complement integer of the usual targets: values are `Int`
  and every addition is reduced by `wrapInt`.
* A `float64` is represented by the rational number it denotes; every operation rounds to
  nearest, ties to even, with a 53-bit significand (`roundFloat64`).  The values that occur
  (integers below `2^63` in magnitude, one quotient of two of them, one product with `100`)
  stay far inside the normal exponent range, so the exponent range is not modelled.
* A Go string is a `String` (the tags come out of `json.Unmarshal`, hence are valid UTF-8);
  the regular expression works on its list of characters.
* A run-time panic is the `error` case of `Except Panic`.
* The process environment, the clock, the metrics backend and the JSON re-encoding are the
  fields of `Platform`; the backend calls issued so far are logged in `World`.
-/

namespace DatadogMetrics

/-! ## Go `int` -/

/-- Reduction of an integer to the range of a 64-bit Go `int`, `[-2^63, 2^63)`. -/
def wrapInt (x : Int) : Int := (x + 2 ^ 63) % 2 ^ 64 - 2 ^ 63

/-- Go `a + b` on `int`. -/
def intAdd (a b : Int) : Int := wrapInt (a + b)

/-! ## Go `float64` -/

/-- Nearest integer, ties to the even one. -/
def roundHalfEven (x : ℚ) : Int :=
  if x - ⌊x⌋ < 1 / 2 then ⌊x⌋
  else if 1 / 2 < x - ⌊x⌋ then ⌊x⌋ + 1
  else if ⌊x⌋ % 2 = 0 then ⌊x⌋ else ⌊x⌋ + 1

/-- The binary64 value nearest to `q` (ties to even): the significand of a non-zero `q` is
scaled into `[2^52, 2^53)` and rounded there. -/
def roundFloat64 (q : ℚ) : ℚ :=
  if q = 0 then 0
  else (roundHalfEven (q / 2 ^ (Int.log 2 |q| - 52)) : ℚ) * 2 ^ (Int.log 2 |q| - 52)

/-- Go `float64(n)` for an `int` n. -/
def float64OfInt (n : Int) : ℚ := roundFloat64 n

/-- Go `x / y` on `float64`, for `y` non-zero. -/
def float64Div (x y : ℚ) : ℚ := roundFloat64 (x / y)

/-- Go `x * y` on `float64`. -/
def float64Mul (x y : ℚ) : ℚ := roundFloat64 (x * y)

/-! ## `regexp`: the fragment used by the pattern `.+_.+:` -/

/-- A single-character class. -/
inductive Atom where
  /-- `.`: any character except a newline (flag `s` is off) -/
  | anyCharNotNL
  /-- a literal character -/
  | literal (c : Char)
deriving DecidableEq

/-- Whether the class contains the character. -/
def Atom.accepts : Atom → Char → Bool
  | .anyCharNotNL, c => c != '\n'
  | .literal l, c => c == l

/-- A step of a pattern: a class, or a greedy one-or-more repetition of it. -/
inductive Node where
  | one (a : Atom)
  | plus (a : Atom)
deriving DecidableEq

/-- Greedy continuation of a repetition: as many further characters of the class as
possible, giving characters back one by one until the rest of the pattern `k` matches.
The result is the number of characters consumed. -/
def matchStar (a : Atom) (k : List Char → Option Nat) : List Char → Option Nat
  | [] => k []
  | c :: s =>
    if a.accepts c then
      match matchStar a k s with
      | some n => some (n + 1)
      | none => k (c :: s)
    else k (c :: s)

/-- The match of the pattern at the start of the input that a backtracking search finds
first (leftmost-first semantics of Go's `regexp`), as its length. -/
def matchHere : List Node → List Char → Option Nat
  | [], _ => some 0
  | .one a :: rest, s =>
    match s with
    | [] => none
    | c :: t => if a.accepts c then (matchHere rest t).map (fun n => n + 1) else none
  | .plus a :: rest, s =>
    match s with
    | [] => none
    | c :: t => if a.accepts c then (matchStar a (matchHere rest) t).map (fun n => n + 1) else none

/-- The scan of `ReplaceAllString`: inside a match (`skip` characters still to drop) nothing
is copied; elsewhere the leftmost match starting at the current position is replaced by
`repl` and the scan resumes behind it, and a character at which no match starts is copied.
(Patterns here never match the empty string; `repl` holds no `$`.) -/
def replaceAllFrom (re : List Node) (repl : List Char) : Nat → List Char → List Char
  | _, [] => []
  | skip + 1, _ :: s => replaceAllFrom re repl skip s
  | 0, c :: s =>
    match matchHere re (c :: s) with
    | some n => repl ++ replaceAllFrom re repl (n - 1) s
    | none => c :: replaceAllFrom re repl 0 s

/-- Go `re.ReplaceAllString(src, repl)`. -/
def ReplaceAllString (re : List Node) (src repl : String) : String :=
  String.mk (replaceAllFrom re repl.data 0 src.data)

/-- The compiled pattern of line 84, `.+_.+:`. -/
def re : List Node :=
  [.plus .anyCharNotNL, .one (.literal '_'), .plus .anyCharNotNL, .one (.literal ':')]

/-! ## Data model -/

/-- One element of `datadogResponse.Series`. -/
structure SeriesItem where
  /-- `[][]*int`: a slice of `[timestamp, value]` slices, `none` for a nil pointer -/
  Pointlist : List (List (Option Int))
  /-- `[]string`: `[offer_id, product_type]` -/
  TagSet : List String
deriving DecidableEq

/-- Go `datadogResponse`. -/
structure datadogResponse where
  Series : List SeriesItem
deriving DecidableEq

def tagSetOfferID : Nat := 0
def tagSetProductType : Nat := 1

/-- The inner map written at lines 122-128, with its five fixed keys. -/
structure OfferRecord where
  success : Int
  failure : Int
  sum : Int
  payflowConversion : ℚ
  productType : String
deriving DecidableEq

/-- Go `map[string]map[string]interface{}` as an association list with unique keys. -/
abbrev ResultMap := List (String × OfferRecord)

/-- Go `m[k] = v`. -/
def ResultMap.set (m : ResultMap) (k : String) (v : OfferRecord) : ResultMap :=
  (k, v) :: m.filter (fun e => e.1 ≠ k)

/-- A run-time panic. -/
inductive Panic where
  /-- `index out of range [index] with length len` -/
  | indexOutOfRange (index len : Nat)
deriving DecidableEq

/-- Go `xs[i]`. -/
def index {α : Type} (xs : List α) (i : Nat) : Except Panic α :=
  match xs[i]? with
  | some x => .ok x
  | none => .error (.indexOutOfRange i xs.length)

/-- An error value: one built by `fmt.Errorf` (format string, the response handle passed to
it if any, the error passed to it if any), or one coming from an external collaborator. -/
inductive GoError (Http : Type) where
  | errorf (format : String) (handle : Option (Option Http)) (cause : Option (GoError Http))
  | external (msg : String)

/-! ## The join step of `fetchAllData` (lines 83-133) -/

/-- The loops of lines 100-104 and 108-112: add every non-nil `pointlist[1]` to `acc`. -/
def sumPoints (acc : Int) : List (List (Option Int)) → Except Panic Int
  | [] => .ok acc
  | pointlist :: rest =>
    match index pointlist 1 with
    | .error p => .error p
    | .ok none => sumPoints acc rest
    | .ok (some v) => sumPoints (intAdd acc v) rest

/-- The loop of lines 106-114 over `failureData.Series`; `tag` is
`series.TagSet[tagSetOfferID]`. -/
def sumFailures (tag : String) (failure : Int) : List SeriesItem → Except Panic Int
  | [] => .ok failure
  | fs :: rest =>
    match index fs.TagSet tagSetOfferID with
    | .error p => .error p
    | .ok t =>
      if t = tag then
        match sumPoints failure fs.Pointlist with
        | .error p => .error p
        | .ok acc => sumFailures tag acc rest
      else sumFailures tag failure rest

/-- Lines 116-120. -/
def payflowConversion (success failure : Int) : ℚ :=
  if intAdd success failure = 0 then 0
  else float64Mul (float64Div (float64OfInt success) (float64OfInt (intAdd success failure))) 100

/-- Lines 94-129: the body of the loop for one `series` when `len(offerIDs) != 0`. -/
def joinSeries (series : SeriesItem) (failureData : datadogResponse) (result : ResultMap) :
    Except Panic ResultMap :=
  match index series.TagSet tagSetOfferID with
  | .error p => .error p
  | .ok tag0 =>
    let offerID := ReplaceAllString re tag0 ""
    match index series.TagSet tagSetProductType with
    | .error p => .error p
    | .ok tag1 =>
      let productType := ReplaceAllString re tag1 ""
      match sumPoints 0 series.Pointlist with
      | .error p => .error p
      | .ok success =>
        match sumFailures tag0 0 failureData.Series with
        | .error p => .error p
        | .ok failure =>
          .ok (result.set offerID
            { success := success
              failure := failure
              sum := intAdd success failure
              payflowConversion := payflowConversion success failure
              productType := productType })

/-- Lines 90-133.  The loop body returns unconditionally (line 131), so only the first
element of `successData.Series` is ever visited; with no element the function falls through
to line 133 and returns the nil map with `err`, which is nil there.  The first component of
a result is the map (`none` for nil), the second the error. -/
def joinStep (Http : Type) (successData failureData : datadogResponse) (offerIDs : List String) :
    Except Panic (Option ResultMap × Option (GoError Http)) :=
  match successData.Series with
  | [] => .ok (none, none)
  | series :: _ =>
    if offerIDs.length ≠ 0 then
      match joinSeries series failureData [] with
      | .error p => .error p
      | .ok result => .ok (some result, none)
    else .ok (some [], none)

/-! ## The outside world -/

/-- One call of `apiClient.MetricsApi.QueryMetrics(ctx, start, stop, query)`. -/
structure QueryCall where
  start : Int
  stop : Int
  query : String
deriving DecidableEq

/-- The backend calls issued so far, oldest first. -/
structure World where
  calls : List QueryCall
deriving DecidableEq

/-- The external collaborators: process environment, clock, the Datadog client (its answer
may depend on the calls made before) and `encoding/json` on the client's response type
`Resp`.  `Http` is the type behind `*http.Response`. -/
structure Platform (Resp Http : Type) where
  /-- `os.Getenv`: the empty string for an unset variable -/
  Getenv : String → String
  /-- `time.Now().Unix()` -/
  unixNow : Int
  /-- `time.Now().AddDate(0, 0, -n).Unix()` -/
  unixDaysBack : Int → Int
  QueryMetrics : List QueryCall → QueryCall → Resp × Option Http × Option (GoError Http)
  /-- `datadog.MetricsQueryResponse{}` -/
  emptyResponse : Resp
  MarshalIndent : Resp → Except (GoError Http) String
  Unmarshal : String → Except (GoError Http) datadogResponse

/-- The query string built at line 31. -/
def metricsQuery (category : String) : String :=
  "sum:prometheus.payflow_subscription_" ++ category ++
    "_total\x7benv:prd\x7d by \x7boffer_id, product_type\x7d.as_count()"

/-- Go `queryAllMetrics` (lines 28-38). -/
def queryAllMetrics {Resp Http : Type} (P : Platform Resp Http) (numberOfDaysBack : Int)
    (category : String) (w : World) : (Resp × Option Http × Option (GoError Http)) × World :=
  if category = "success" ∨ category = "failure" then
    let call : QueryCall :=
      { start := P.unixDaysBack numberOfDaysBack, stop := P.unixNow, query := metricsQuery category }
    let w1 : World := { calls := w.calls ++ [call] }
    match P.QueryMetrics w.calls call with
    | (_, r, some err) =>
      ((P.emptyResponse, r,
        some (.errorf "failed to get data from payflowV2: %v: %w" (some r) (some err))), w1)
    | (response, r, none) => ((response, r, none), w1)
  else ((P.emptyResponse, none, some (.errorf "invalid category" none none)), w)

/-- Go `fetchAllData` (lines 41-134).  `regexp.Compile` succeeds on the constant pattern of
line 84, so its error branch is not taken. -/
def fetchAllData {Resp Http : Type} (P : Platform Resp Http) (numberOfDaysBack : Int)
    (offerIDs : List String) (w : World) :
    Except Panic (Option ResultMap × Option (GoError Http)) × World :=
  if P.Getenv "DD_API_KEY" = "" ∨ P.Getenv "DD_APP_KEY" = "" then
    (.ok (none, some (.errorf "failed to fetch environment variables" none none)), w)
  else
    match queryAllMetrics P numberOfDaysBack "success" w with
    | ((_, responsePointer, some err), w1) =>
      (.ok (none, some (.errorf "failed to get success purchase data: %v: %w"
        (some responsePointer) (some err))), w1)
    | ((successResp, _, none), w1) =>
      match queryAllMetrics P numberOfDaysBack "failure" w1 with
      | ((_, responsePointer, some err), w2) =>
        (.ok (none, some (.errorf "failed to get failed purchase data: %v: %w"
          (some responsePointer) (some err))), w2)
      | ((failureResp, _, none), w2) =>
        match P.MarshalIndent successResp with
        | .error err =>
          (.ok (none, some (.errorf "failed to marshal success response: %w" none (some err))), w2)
        | .ok successResponseContent =>
          match P.MarshalIndent failureResp with
          | .error err =>
            (.ok (none, some (.errorf "failed to marshal failure response: %w" none (some err))), w2)
          | .ok failureResponseContent =>
            match P.Unmarshal successResponseContent with
            | .error err =>
              (.ok (none, some (.errorf "failed to unmarshal success response: %w" none (some err))), w2)
            | .ok successData =>
              match P.Unmarshal failureResponseContent with
              | .error err =>
                (.ok (none,
                  some (.errorf "failed to unmarshal failure response: %w" none (some err))), w2)
              | .ok failureData => (joinStep Http successData failureData offerIDs, w2)

/-! ## Vocabulary of the specification -/

/-- The records of a returned map; the nil map holds none. -/
def entries (m : Option ResultMap) : List (String × OfferRecord) := m.getD []

/-- The exact sum of the non-null values (second entries) of a point list. -/
def pointSum (points : List (List (Option Int))) : Int :=
  (points.map (fun p => (p[1]?).join.getD 0)).sum

/-- The exact sum of the non-null point values of all series whose first tag is `tag`. -/
def matchingSum (tag : String) (series : List SeriesItem) : Int :=
  ((series.filter (fun fs => fs.TagSet[0]? = some tag)).map (fun fs => pointSum fs.Pointlist)).sum

/-- The exact sum of all non-null point values of a response. -/
def totalSum (d : datadogResponse) : Int :=
  (d.Series.map (fun s => pointSum s.Pointlist)).sum

/-- All non-null point values of a response are non-negative (a null or missing value
counts as 0, as in `pointSum`). -/
def NonNegValues (d : datadogResponse) : Prop :=
  ∀ s ∈ d.Series, ∀ p ∈ s.Pointlist, (0 : Int) ≤ (p[1]?).join.getD 0

/-- A platform with no credentials in its environment and a backend that answers every
query with an empty body; used to instantiate the statements about the outside world. -/
def barePlatform : Platform String Unit where
  Getenv := fun _ => ""
  unixNow := 1700000000
  unixDaysBack := fun n => 1700000000 - 86400 * n
  QueryMetrics := fun _ _ => ("", some (), none)
  emptyResponse := ""
  MarshalIndent := fun r => .ok r
  Unmarshal := fun _ => .ok ⟨[]⟩

/-- The success result of the end-to-end scenario of the specification: one group
`offer_id:42,product_type:annual` whose points (one of them null) sum to 80. -/
def sampleSuccess : datadogResponse :=
  ⟨[⟨[[some 1700000000, some 30], [some 1700000060, none], [some 1700000120, some 50]],
      ["offer_id:42", "product_type:annual"]⟩]⟩

/-- The failure result of that scenario: the same tag group, summing to 20. -/
def sampleFailure : datadogResponse :=
  ⟨[⟨[[some 1700000000, some 20]], ["offer_id:42", "product_type:annual"]⟩]⟩

/-- A success result whose first group sums to 10 and whose second group holds a value near
`2^62`. -/
def boundarySuccess : datadogResponse :=
  ⟨[⟨[[some 1700000000, some 10]], ["offer_id:1", "product_type:a"]⟩,
    ⟨[[some 1700000000, some 4611686018427387894]], ["offer_id:2", "product_type:a"]⟩]⟩

/-- A failure result whose group for offer 1 sums to 5 and whose group for offer 2 holds a
value near `2^62`. -/
def boundaryFailure : datadogResponse :=
  ⟨[⟨[[some 1700000000, some 5]], ["offer_id:1", "product_type:a"]⟩,
    ⟨[[some 1700000000, some 4611686018427387899]], ["offer_id:2", "product_type:a"]⟩]⟩

/-! ## Go `int`: lemmas -/

theorem wrapInt_of_fits (x : Int) (h1 : -2 ^ 63 ≤ x) (h2 : x < 2 ^ 63) : wrapInt x = x := by
  unfold wrapInt; omega

theorem wrapInt_fits (x : Int) : -2 ^ 63 ≤ wrapInt x ∧ wrapInt x < 2 ^ 63 := by
  unfold wrapInt; omega

theorem wrapInt_add_left (a b : Int) : wrapInt (wrapInt a + b) = wrapInt (a + b) := by
  unfold wrapInt; omega

theorem wrapInt_idem (a : Int) : wrapInt (wrapInt a) = wrapInt a := by
  unfold wrapInt; omega

/-! ## Go `float64`: lemmas -/

theorem floor_le_roundHalfEven (x : ℚ) : ⌊x⌋ ≤ roundHalfEven x := by
  unfold roundHalfEven
  split_ifs <;> omega

theorem roundHalfEven_le_floor_succ (x : ℚ) : roundHalfEven x ≤ ⌊x⌋ + 1 := by
  unfold roundHalfEven
  split_ifs <;> omega

theorem roundHalfEven_intCast (n : Int) : roundHalfEven (n : ℚ) = n := by
  unfold roundHalfEven
  simp

theorem roundHalfEven_mono {x y : ℚ} (h : x ≤ y) : roundHalfEven x ≤ roundHalfEven y := by
  have hf : ⌊x⌋ ≤ ⌊y⌋ := Int.floor_mono h
  rcases lt_or_eq_of_le hf with hlt | heq
  · calc roundHalfEven x ≤ ⌊x⌋ + 1 := roundHalfEven_le_floor_succ x
      _ ≤ ⌊y⌋ := hlt
      _ ≤ roundHalfEven y := floor_le_roundHalfEven y
  · unfold roundHalfEven
    rw [heq]
    split_ifs <;> first | omega | (exfalso; linarith)

theorem roundHalfEven_le_of_le {x : ℚ} {n : Int} (h : x ≤ n) : roundHalfEven x ≤ n := by
  have := roundHalfEven_mono h
  rwa [roundHalfEven_intCast] at this

theorem le_roundHalfEven_of_le {x : ℚ} {n : Int} (h : (n : ℚ) ≤ x) : n ≤ roundHalfEven x := by
  have := roundHalfEven_mono h
  rwa [roundHalfEven_intCast] at this

theorem roundHalfEven_of_near {x : ℚ} (n : Int) (h1 : (n : ℚ) - 1 / 2 < x)
    (h2 : x < n + 1 / 2) : roundHalfEven x = n := by
  have hf1 : (⌊x⌋ : ℚ) ≤ x := Int.floor_le x
  have hf2 : x < ⌊x⌋ + 1 := Int.lt_floor_add_one x
  have ha : n - 1 ≤ ⌊x⌋ := by
    have : ((n - 1 : Int) : ℚ) < ⌊x⌋ + 1 := by push_cast; linarith
    have := Int.cast_lt.mp (by push_cast; push_cast at this; exact this : ((n - 1 : Int) : ℚ) < ((⌊x⌋ + 1 : Int) : ℚ))
    omega
  have hb : ⌊x⌋ ≤ n := by
    have : (⌊x⌋ : ℚ) < ((n + 1 : Int) : ℚ) := by push_cast; linarith
    have := Int.cast_lt.mp this
    omega
  rcases (by omega : ⌊x⌋ = n ∨ ⌊x⌋ = n - 1) with h | h
  · unfold roundHalfEven
    rw [h, if_pos (by linarith)]
  · unfold roundHalfEven
    rw [h]
    have hx : ¬ (x - ((n - 1 : Int) : ℚ) < 1 / 2) := by push_cast; linarith
    have hy : (1 : ℚ) / 2 < x - ((n - 1 : Int) : ℚ) := by push_cast; linarith
    rw [if_neg hx, if_pos hy]
    omega

theorem log_two_eq {q : ℚ} {e : Int} (h1 : (2 : ℚ) ^ e ≤ q) (h2 : q < 2 ^ (e + 1)) :
    Int.log 2 q = e := by
  have hpos : 0 < q := lt_of_lt_of_le (by positivity) h1
  have ha : e ≤ Int.log 2 q := by
    apply (Int.zpow_le_iff_le_log (by norm_num : 1 < 2) hpos).mp
    simpa using h1
  have hb : Int.log 2 q < e + 1 := by
    apply (Int.lt_zpow_iff_log_lt (by norm_num : 1 < 2) hpos).mp
    simpa using h2
  omega

theorem roundFloat64_of_binade {q : ℚ} (e : Int) (h1 : (2 : ℚ) ^ (e + 52) ≤ |q|)
    (h2 : |q| < 2 ^ (e + 53)) :
    roundFloat64 q = (roundHalfEven (q / 2 ^ e) : ℚ) * 2 ^ e := by
  have hpos : 0 < |q| := lt_of_lt_of_le (by positivity) h1
  have hq : q ≠ 0 := abs_pos.mp hpos
  have hlog : Int.log 2 |q| = e + 52 := log_two_eq h1 (by rw [show e + 52 + 1 = e + 53 by ring]; exact h2)
  unfold roundFloat64
  rw [if_neg hq, hlog, show e + 52 - 52 = e by ring]

theorem binade_of_ne_zero {q : ℚ} (hq : q ≠ 0) :
    (2 : ℚ) ^ (Int.log 2 |q| - 52 + 52) ≤ |q| ∧ |q| < 2 ^ (Int.log 2 |q| - 52 + 53) := by
  have hpos : 0 < |q| := abs_pos.mpr hq
  have h1 := Int.zpow_log_le_self (b := 2) (by norm_num) hpos
  have h2 := Int.lt_zpow_succ_log_self (b := 2) (by norm_num) |q|
  rw [show Int.log 2 |q| - 52 + 52 = Int.log 2 |q| by ring,
    show Int.log 2 |q| - 52 + 53 = Int.log 2 |q| + 1 by ring]
  exact ⟨by simpa using h1, by simpa using h2⟩

theorem roundFloat64_zero : roundFloat64 0 = 0 := by
  unfold roundFloat64
  rw [if_pos rfl]

theorem roundFloat64_nonneg {q : ℚ} (h : 0 ≤ q) : 0 ≤ roundFloat64 q := by
  unfold roundFloat64
  split_ifs with h0
  · exact le_refl 0
  · apply mul_nonneg
    · have hx : ((0 : Int) : ℚ) ≤ q / 2 ^ (Int.log 2 |q| - 52) := by
        push_cast
        exact div_nonneg h (by positivity)
      exact_mod_cast le_roundHalfEven_of_le hx
    · positivity

theorem scaled_bounds {a : ℚ} {e : Int} (h1 : (2 : ℚ) ^ (e + 52) ≤ a) (h2 : a < 2 ^ (e + 53)) :
    (2 : ℚ) ^ 52 ≤ a / 2 ^ e ∧ a / 2 ^ e ≤ 2 ^ 53 := by
  have hpos : (0 : ℚ) < 2 ^ e := by positivity
  rw [zpow_add₀ (by norm_num : (2 : ℚ) ≠ 0)] at h1 h2
  constructor
  · rw [le_div_iff₀ hpos]
    have h3 : (2 : ℚ) ^ (52 : Int) = 2 ^ 52 := by norm_num
    rw [h3] at h1
    linarith
  · rw [div_le_iff₀ hpos]
    have h3 : (2 : ℚ) ^ (53 : Int) = 2 ^ 53 := by norm_num
    rw [h3] at h2
    linarith

theorem roundFloat64_mono {a b : ℚ} (ha : 0 ≤ a) (hab : a ≤ b) :
    roundFloat64 a ≤ roundFloat64 b := by
  rcases eq_or_lt_of_le ha with h0 | hpos
  · rw [← h0, roundFloat64_zero]
    exact roundFloat64_nonneg (le_trans ha hab)
  · have hbpos : 0 < b := lt_of_lt_of_le hpos hab
    have hane : a ≠ 0 := ne_of_gt hpos
    have hbne : b ≠ 0 := ne_of_gt hbpos
    obtain ⟨a1, a2⟩ := binade_of_ne_zero hane
    obtain ⟨b1, b2⟩ := binade_of_ne_zero hbne
    rw [roundFloat64_of_binade _ a1 a2, roundFloat64_of_binade _ b1 b2]
    rw [abs_of_pos hpos] at a1 a2 ⊢
    rw [abs_of_pos hbpos] at b1 b2 ⊢
    have hlog : Int.log 2 a - 52 ≤ Int.log 2 b - 52 := by
      have := Int.log_mono_right (b := 2) hpos hab
      omega
    generalize Int.log 2 a - 52 = ea at a1 a2 hlog ⊢
    generalize Int.log 2 b - 52 = eb at b1 b2 hlog ⊢
    have hea : (0 : ℚ) < 2 ^ ea := by positivity
    have heb : (0 : ℚ) < 2 ^ eb := by positivity
    rcases eq_or_lt_of_le hlog with heq | hlt
    · subst heq
      apply mul_le_mul_of_nonneg_right _ (le_of_lt hea)
      exact_mod_cast roundHalfEven_mono (div_le_div_of_nonneg_right hab (le_of_lt hea))
    · have hA : roundHalfEven (a / 2 ^ ea) ≤ 2 ^ 53 :=
        roundHalfEven_le_of_le (by push_cast; exact (scaled_bounds a1 a2).2)
      have hB : (2 ^ 52 : Int) ≤ roundHalfEven (b / 2 ^ eb) :=
        le_roundHalfEven_of_le (by push_cast; exact (scaled_bounds b1 b2).1)
      have hA2 : (roundHalfEven (a / 2 ^ ea) : ℚ) ≤ 2 ^ 53 := by exact_mod_cast hA
      have hB2 : (2 ^ 52 : ℚ) ≤ roundHalfEven (b / 2 ^ eb) := by exact_mod_cast hB
      have hpow : (2 : ℚ) ^ (ea + 1) ≤ 2 ^ eb :=
        zpow_le_zpow_right₀ (by norm_num) (by omega)
      rw [zpow_add₀ (by norm_num : (2 : ℚ) ≠ 0), zpow_one] at hpow
      calc (roundHalfEven (a / 2 ^ ea) : ℚ) * 2 ^ ea ≤ 2 ^ 53 * 2 ^ ea :=
            mul_le_mul_of_nonneg_right hA2 (le_of_lt hea)
        _ = 2 ^ 52 * (2 ^ ea * 2) := by ring
        _ ≤ 2 ^ 52 * 2 ^ eb := by apply mul_le_mul_of_nonneg_left hpow; positivity
        _ ≤ (roundHalfEven (b / 2 ^ eb) : ℚ) * 2 ^ eb :=
            mul_le_mul_of_nonneg_right hB2 (le_of_lt heb)

theorem roundFloat64_exact (m e : Int) (hm : |m| < 2 ^ 53) :
    roundFloat64 ((m : ℚ) * 2 ^ e) = (m : ℚ) * 2 ^ e := by
  by_cases h0 : m = 0
  · simp [h0, roundFloat64_zero]
  · have hq : (m : ℚ) * 2 ^ e ≠ 0 := by
      apply mul_ne_zero
      · exact_mod_cast h0
      · positivity
    obtain ⟨b1, b2⟩ := binade_of_ne_zero hq
    rw [roundFloat64_of_binade _ b1 b2]
    generalize Int.log 2 |(m : ℚ) * 2 ^ e| - 52 = k at b1 b2 ⊢
    -- the scaling exponent does not exceed `e`
    have habs : |(m : ℚ) * 2 ^ e| = |(m : ℚ)| * 2 ^ e := by
      rw [abs_mul, abs_of_pos (by positivity : (0 : ℚ) < 2 ^ e)]
    have hmq : |(m : ℚ)| < 2 ^ 53 := by
      have : ((|m| : Int) : ℚ) < ((2 ^ 53 : Int) : ℚ) := Int.cast_lt.mpr hm
      push_cast at this
      exact this
    have hke : k ≤ e := by
      by_contra hc
      have hlt : e + 53 ≤ k + 52 := by omega
      have h3 : (2 : ℚ) ^ (e + 53) ≤ 2 ^ (k + 52) := zpow_le_zpow_right₀ (by norm_num) hlt
      have h4 : |(m : ℚ)| * 2 ^ e < 2 ^ (e + 53) := by
        rw [zpow_add₀ (by norm_num : (2 : ℚ) ≠ 0), mul_comm ((2 : ℚ) ^ e)]
        have h5 : (2 : ℚ) ^ (53 : Int) = 2 ^ 53 := by norm_num
        rw [h5]
        exact mul_lt_mul_of_pos_right hmq (by positivity)
      rw [habs] at b1
      linarith
    obtain ⟨d, hd⟩ := Int.eq_ofNat_of_zero_le (by omega : 0 ≤ e - k)
    have he : e = k + d := by omega
    have hscaled : (m : ℚ) * 2 ^ e / 2 ^ k = ((m * 2 ^ d : Int) : ℚ) := by
      rw [he, zpow_add₀ (by norm_num : (2 : ℚ) ≠ 0), zpow_natCast]
      push_cast
      field_simp
      ring
    rw [hscaled, roundHalfEven_intCast, he, zpow_add₀ (by norm_num : (2 : ℚ) ≠ 0), zpow_natCast]
    push_cast
    ring

/-! ## The regular expression: lemmas -/

theorem matchHere_one_cons (a : Atom) (rest : List Node) (c : Char) (t : List Char) :
    matchHere (.one a :: rest) (c :: t)
      = if a.accepts c then (matchHere rest t).map (fun n => n + 1) else none := rfl

theorem matchHere_plus_cons (a : Atom) (rest : List Node) (c : Char) (t : List Char) :
    matchHere (.plus a :: rest) (c :: t)
      = if a.accepts c then (matchStar a (matchHere rest) t).map (fun n => n + 1) else none := rfl

theorem matchStar_cons (a : Atom) (k : List Char → Option Nat) (c : Char) (s : List Char) :
    matchStar a k (c :: s)
      = if a.accepts c then
          (match matchStar a k s with
           | some n => some (n + 1)
           | none => k (c :: s))
        else k (c :: s) := rfl

theorem matchHere_nil (s : List Char) : matchHere [] s = some 0 := by
  cases s <;> rfl

theorem matchHere_colon_none (s : List Char) (h : ':' ∉ s) :
    matchHere [.one (.literal ':')] s = none := by
  cases s with
  | nil => rfl
  | cons c t =>
    have hc : c ≠ ':' := fun e => h (by simp [e])
    simp [matchHere_one_cons, Atom.accepts, hc]

theorem matchStar_colon_none (s : List Char) (h : ':' ∉ s) :
    matchStar .anyCharNotNL (matchHere [.one (.literal ':')]) s = none := by
  induction s with
  | nil => rfl
  | cons c t ih =>
    have ht : ':' ∉ t := fun e => h (List.mem_cons_of_mem _ e)
    simp only [matchStar, ih ht, matchHere_colon_none _ h]
    split <;> rfl

theorem matchHere_plus_colon_none (s : List Char) (h : ':' ∉ s) :
    matchHere [.plus .anyCharNotNL, .one (.literal ':')] s = none := by
  cases s with
  | nil => rfl
  | cons c t =>
    have ht : ':' ∉ t := fun e => h (List.mem_cons_of_mem _ e)
    simp [matchHere_plus_cons, matchStar_colon_none t ht]

theorem matchHere_tail_none (s : List Char) (h : ':' ∉ s) :
    matchHere [.one (.literal '_'), .plus .anyCharNotNL, .one (.literal ':')] s = none := by
  cases s with
  | nil => rfl
  | cons c t =>
    have ht : ':' ∉ t := fun e => h (List.mem_cons_of_mem _ e)
    simp [matchHere_one_cons, matchHere_plus_colon_none t ht]

theorem matchStar_tail_none (s : List Char) (h : ':' ∉ s) :
    matchStar .anyCharNotNL
      (matchHere [.one (.literal '_'), .plus .anyCharNotNL, .one (.literal ':')]) s = none := by
  induction s with
  | nil => rfl
  | cons c t ih =>
    have ht : ':' ∉ t := fun e => h (List.mem_cons_of_mem _ e)
    simp only [matchStar, ih ht, matchHere_tail_none _ h]
    split <;> rfl

theorem matchHere_re_none (s : List Char) (h : ':' ∉ s) : matchHere re s = none := by
  cases s with
  | nil => rfl
  | cons c t =>
    have ht : ':' ∉ t := fun e => h (List.mem_cons_of_mem _ e)
    simp [re, matchHere_plus_cons, matchStar_tail_none t ht]

theorem replaceAllFrom_no_colon (s : List Char) (h : ':' ∉ s) :
    replaceAllFrom re [] 0 s = s := by
  induction s with
  | nil => rfl
  | cons c t ih =>
    have ht : ':' ∉ t := fun e => h (List.mem_cons_of_mem _ e)
    simp [replaceAllFrom, matchHere_re_none _ h, ih ht]

theorem matchHere_offer_id (v : List Char) (h : ':' ∉ v) :
    matchHere re ('o' :: 'f' :: 'f' :: 'e' :: 'r' :: '_' :: 'i' :: 'd' :: ':' :: v) = some 9 := by
  simp [re, matchHere_plus_cons, matchHere_one_cons, matchHere_nil, matchStar_cons, Atom.accepts, matchStar_tail_none v h, matchStar_colon_none v h]

theorem matchHere_product_type (v : List Char) (h : ':' ∉ v) :
    matchHere re ('p' :: 'r' :: 'o' :: 'd' :: 'u' :: 'c' :: 't' :: '_' :: 't' :: 'y' :: 'p' :: 'e'
      :: ':' :: v) = some 13 := by
  simp [re, matchHere_plus_cons, matchHere_one_cons, matchHere_nil, matchStar_cons, Atom.accepts, matchStar_tail_none v h, matchStar_colon_none v h]

theorem strip_offer_id (v : String) (h : ':' ∉ v.data) :
    ReplaceAllString re ("offer_id:" ++ v) "" = v := by
  have hd : ("offer_id:" ++ v).data
      = 'o' :: 'f' :: 'f' :: 'e' :: 'r' :: '_' :: 'i' :: 'd' :: ':' :: v.data := by
    simp [String.data_append]
  unfold ReplaceAllString
  rw [hd]
  simp [replaceAllFrom, matchHere_offer_id v.data h, replaceAllFrom_no_colon v.data h]

theorem strip_product_type (v : String) (h : ':' ∉ v.data) :
    ReplaceAllString re ("product_type:" ++ v) "" = v := by
  have hd : ("product_type:" ++ v).data
      = 'p' :: 'r' :: 'o' :: 'd' :: 'u' :: 'c' :: 't' :: '_' :: 't' :: 'y' :: 'p' :: 'e'
      :: ':' :: v.data := by
    simp [String.data_append]
  unfold ReplaceAllString
  rw [hd]
  simp [replaceAllFrom, matchHere_product_type v.data h, replaceAllFrom_no_colon v.data h]

/-! ## The summation loops: lemmas -/

theorem index_ok {α : Type} (xs : List α) (i : Nat) (h : i < xs.length) :
    index xs i = .ok (xs[i]) := by
  unfold index
  rw [List.getElem?_eq_getElem h]

theorem index_error {α : Type} (xs : List α) (i : Nat) (h : xs.length ≤ i) :
    index xs i = .error (.indexOutOfRange i xs.length) := by
  unfold index
  rw [List.getElem?_eq_none_iff.mpr h]

theorem pointSum_cons (p : List (Option Int)) (rest : List (List (Option Int))) :
    pointSum (p :: rest) = (p[1]?).join.getD 0 + pointSum rest := by
  simp [pointSum]

theorem sumPoints_ok (points : List (List (Option Int))) :
    ∀ acc : Int, wrapInt acc = acc → (∀ p ∈ points, 2 ≤ p.length) →
      sumPoints acc points = .ok (wrapInt (acc + pointSum points)) := by
  induction points with
  | nil =>
    intro acc hacc _
    simp [sumPoints, pointSum, hacc]
  | cons p rest ih =>
    intro acc hacc hlen
    have hp : 1 < p.length := hlen p (List.mem_cons_self _ _)
    have hrest : ∀ q ∈ rest, 2 ≤ q.length := fun q hq => hlen q (List.mem_cons_of_mem _ hq)
    have hget : p[1]? = some p[1] := List.getElem?_eq_getElem hp
    rw [sumPoints, index_ok p 1 hp, pointSum_cons, hget]
    cases hv : p[1] with
    | none =>
      simp only [Option.join, Option.bind, Option.getD, zero_add, id]
      rw [ih acc hacc hrest]
    | some v =>
      simp only [Option.join, Option.bind, Option.getD, id]
      rw [ih (intAdd acc v) (wrapInt_idem _) hrest, intAdd, wrapInt_add_left, add_assoc]

theorem sumPoints_error (points : List (List (Option Int))) :
    ∀ acc : Int, (∃ p ∈ points, p.length < 2) →
      ∃ n, sumPoints acc points = .error (.indexOutOfRange 1 n) := by
  induction points with
  | nil => intro acc h; simp at h
  | cons p rest ih =>
    intro acc h
    by_cases hp : p.length < 2
    · exact ⟨p.length, by rw [sumPoints, index_error p 1 (by omega)]⟩
    · have hrest : ∃ q ∈ rest, q.length < 2 := by
        obtain ⟨q, hq, hlen⟩ := h
        rcases List.mem_cons.mp hq with rfl | hq
        · exact absurd hlen hp
        · exact ⟨q, hq, hlen⟩
      rw [sumPoints, index_ok p 1 (by omega)]
      cases p[1] with
      | none => exact ih acc hrest
      | some v => exact ih _ hrest

theorem matchingSum_cons (tag : String) (fs : SeriesItem) (rest : List SeriesItem) :
    matchingSum tag (fs :: rest)
      = (if fs.TagSet[0]? = some tag then pointSum fs.Pointlist else 0) + matchingSum tag rest := by
  unfold matchingSum
  by_cases h : fs.TagSet[0]? = some tag <;> simp [List.filter_cons, h]

theorem sumFailures_ok (tag : String) (l : List SeriesItem) :
    ∀ acc : Int, wrapInt acc = acc → (∀ fs ∈ l, fs.TagSet ≠ []) →
      (∀ fs ∈ l, fs.TagSet[0]? = some tag → ∀ p ∈ fs.Pointlist, 2 ≤ p.length) →
      sumFailures tag acc l = .ok (wrapInt (acc + matchingSum tag l)) := by
  induction l with
  | nil =>
    intro acc hacc _ _
    simp [sumFailures, matchingSum, hacc]
  | cons fs rest ih =>
    intro acc hacc htag hpts
    have h0 : 0 < fs.TagSet.length :=
      List.length_pos.mpr (htag fs (List.mem_cons_self _ _))
    have htag2 : ∀ g ∈ rest, g.TagSet ≠ [] := fun g hg => htag g (List.mem_cons_of_mem _ hg)
    have hpts2 : ∀ g ∈ rest, g.TagSet[0]? = some tag → ∀ p ∈ g.Pointlist, 2 ≤ p.length :=
      fun g hg => hpts g (List.mem_cons_of_mem _ hg)
    have hget : fs.TagSet[0]? = some fs.TagSet[0] := List.getElem?_eq_getElem h0
    rw [sumFailures, tagSetOfferID, index_ok fs.TagSet 0 h0, matchingSum_cons, hget]
    by_cases ht : fs.TagSet[0] = tag
    · have hp := hpts fs (List.mem_cons_self _ _) (by rw [hget, ht])
      simp only [ht, if_true]
      rw [sumPoints_ok fs.Pointlist acc hacc hp]
      simp only []
      rw [ih _ (wrapInt_idem _) htag2 hpts2, wrapInt_add_left, add_assoc]
    · have ht2 : ¬ (some fs.TagSet[0] = some tag) := fun e => ht (Option.some.inj e)
      simp only [ht, ht2, if_false, zero_add]
      exact ih acc hacc htag2 hpts2

theorem sumFailures_error (tag : String) (l : List SeriesItem) :
    ∀ acc : Int,
      ((∃ fs ∈ l, fs.TagSet = []) ∨
        (∃ fs ∈ l, fs.TagSet[0]? = some tag ∧ ∃ p ∈ fs.Pointlist, p.length < 2)) →
      ∃ i n, sumFailures tag acc l = .error (.indexOutOfRange i n) := by
  induction l with
  | nil => intro acc h; simp at h
  | cons fs rest ih =>
    intro acc h
    by_cases h0 : fs.TagSet = []
    · exact ⟨0, 0, by rw [sumFailures, tagSetOfferID, index_error fs.TagSet 0 (by simp [h0])]; simp [h0]⟩
    · have hlen : 0 < fs.TagSet.length := List.length_pos.mpr h0
      have hget : fs.TagSet[0]? = some fs.TagSet[0] := List.getElem?_eq_getElem hlen
      rw [sumFailures, tagSetOfferID, index_ok fs.TagSet 0 hlen]
      by_cases ht : fs.TagSet[0] = tag
      · simp only [ht, if_true]
        by_cases hbad : ∃ p ∈ fs.Pointlist, p.length < 2
        · obtain ⟨n, hn⟩ := sumPoints_error fs.Pointlist acc hbad
          exact ⟨1, n, by rw [hn]⟩
        · have hgood : ∀ p ∈ fs.Pointlist, 2 ≤ p.length := by
            intro p hp
            by_contra hc
            exact hbad ⟨p, hp, by omega⟩
          have hrest : (∃ g ∈ rest, g.TagSet = []) ∨
              (∃ g ∈ rest, g.TagSet[0]? = some tag ∧ ∃ p ∈ g.Pointlist, p.length < 2) := by
            rcases h with ⟨g, hg, hg0⟩ | ⟨g, hg, hgt, hgp⟩
            · rcases List.mem_cons.mp hg with rfl | hg
              · exact absurd hg0 h0
              · exact Or.inl ⟨g, hg, hg0⟩
            · rcases List.mem_cons.mp hg with rfl | hg
              · exact absurd hgp hbad
              · exact Or.inr ⟨g, hg, hgt, hgp⟩
          cases hs : sumPoints acc fs.Pointlist with
          | error e =>
            cases e with
            | indexOutOfRange i n => exact ⟨i, n, rfl⟩
          | ok r => exact ih r hrest
      · simp only [ht, if_false]
        have hrest : (∃ g ∈ rest, g.TagSet = []) ∨
            (∃ g ∈ rest, g.TagSet[0]? = some tag ∧ ∃ p ∈ g.Pointlist, p.length < 2) := by
          rcases h with ⟨g, hg, hg0⟩ | ⟨g, hg, hgt, hgp⟩
          · rcases List.mem_cons.mp hg with rfl | hg
            · exact absurd hg0 h0
            · exact Or.inl ⟨g, hg, hg0⟩
          · rcases List.mem_cons.mp hg with rfl | hg
            · rw [hget] at hgt
              exact absurd (Option.some.inj hgt) ht
            · exact Or.inr ⟨g, hg, hgt, hgp⟩
        exact ih acc hrest

theorem joinSeries_ok (points : List (List (Option Int))) (t0 t1 : String) (more : List String)
    (failureData : datadogResponse)
    (hp : ∀ p ∈ points, 2 ≤ p.length)
    (hf0 : ∀ fs ∈ failureData.Series, fs.TagSet ≠ [])
    (hfp : ∀ fs ∈ failureData.Series, fs.TagSet[0]? = some t0 → ∀ p ∈ fs.Pointlist, 2 ≤ p.length) :
    joinSeries ⟨points, t0 :: t1 :: more⟩ failureData [] =
      .ok [(ReplaceAllString re t0 "",
        { success := wrapInt (pointSum points)
          failure := wrapInt (matchingSum t0 failureData.Series)
          sum := intAdd (wrapInt (pointSum points)) (wrapInt (matchingSum t0 failureData.Series))
          payflowConversion :=
            payflowConversion (wrapInt (pointSum points)) (wrapInt (matchingSum t0 failureData.Series))
          productType := ReplaceAllString re t1 "" })] := by
  have h1 := sumPoints_ok points 0 (by decide) hp
  have h2 := sumFailures_ok t0 failureData.Series 0 (by decide) hf0 hfp
  rw [zero_add] at h1 h2
  simp only [joinSeries, tagSetOfferID, tagSetProductType, index, List.getElem?_cons_zero,
    List.getElem?_cons_succ, h1, h2, ResultMap.set, List.filter_nil]

theorem joinSeries_error (series : SeriesItem) (failureData : datadogResponse)
    (h : series.TagSet.length < 2 ∨ (∃ p ∈ series.Pointlist, p.length < 2) ∨
      (∃ fs ∈ failureData.Series, fs.TagSet = []) ∨
      (∃ fs ∈ failureData.Series, fs.TagSet[0]? = series.TagSet[0]? ∧ fs.TagSet ≠ [] ∧
        ∃ p ∈ fs.Pointlist, p.length < 2)) :
    ∃ i n, joinSeries series failureData [] = .error (.indexOutOfRange i n) := by
  obtain ⟨points, tags⟩ := series
  match tags, h with
  | [], _ => exact ⟨0, 0, rfl⟩
  | [t0], _ => exact ⟨1, 1, rfl⟩
  | t0 :: t1 :: more, h =>
    simp only [joinSeries, tagSetOfferID, tagSetProductType, index, List.getElem?_cons_zero,
      List.getElem?_cons_succ]
    rcases h with h | h | h
    · simp only [List.length_cons] at h
      omega
    · obtain ⟨n, hn⟩ := sumPoints_error points 0 h
      exact ⟨1, n, by rw [hn]⟩
    · cases hs : sumPoints 0 points with
      | error e =>
        cases e with
        | indexOutOfRange i n => exact ⟨i, n, rfl⟩
      | ok r =>
        have h3 : (∃ fs ∈ failureData.Series, fs.TagSet = []) ∨
            (∃ fs ∈ failureData.Series, fs.TagSet[0]? = some t0 ∧
              ∃ p ∈ fs.Pointlist, p.length < 2) := by
          rcases h with h | ⟨fs, hfs, ht, _, hp⟩
          · exact Or.inl h
          · exact Or.inr ⟨fs, hfs, by simpa using ht, hp⟩
        obtain ⟨i, n, hn⟩ := sumFailures_error t0 failureData.Series 0 h3
        exact ⟨i, n, by simp only [hn]⟩

theorem joinStep_cons {Http : Type} (series : SeriesItem) (rest : List SeriesItem)
    (failureData : datadogResponse) (offerIDs : List String) (hne : offerIDs ≠ []) :
    joinStep Http ⟨series :: rest⟩ failureData offerIDs =
      match joinSeries series failureData [] with
      | .error p => .error p
      | .ok result => .ok (some result, none) := by
  have h : offerIDs.length ≠ 0 := fun e => hne (List.length_eq_zero.mp e)
  simp only [joinStep, if_pos h]

/-! ## The conversion percentage: lemmas -/

theorem roundFloat64_intCast (n : Int) (h : |n| < 2 ^ 53) : roundFloat64 (n : ℚ) = n := by
  have := roundFloat64_exact n 0 h
  simpa using this

theorem intAdd_of_fits (a b : Int) (h1 : -2 ^ 63 ≤ a + b) (h2 : a + b < 2 ^ 63) :
    intAdd a b = a + b := wrapInt_of_fits _ h1 h2

theorem payflowConversion_bounds (s f : Int) (hs : 0 ≤ s) (hf : 0 ≤ f) (hfit : s + f < 2 ^ 63) :
    0 ≤ payflowConversion s f ∧ payflowConversion s f ≤ 100 := by
  unfold payflowConversion
  rw [intAdd_of_fits s f (by omega) hfit]
  split_ifs with h0
  · exact ⟨le_refl 0, by norm_num⟩
  · have ht : (1 : Int) ≤ s + f := by omega
    have hx0 : 0 ≤ float64OfInt s := roundFloat64_nonneg (by exact_mod_cast hs)
    have hxy : float64OfInt s ≤ float64OfInt (s + f) :=
      roundFloat64_mono (by exact_mod_cast hs) (by exact_mod_cast (by omega : s ≤ s + f))
    have hy1 : (1 : ℚ) ≤ float64OfInt (s + f) := by
      have h1 := roundFloat64_mono (a := ((1 : Int) : ℚ)) (b := ((s + f : Int) : ℚ))
        (by norm_num) (by exact_mod_cast ht)
      rw [roundFloat64_intCast 1 (by decide)] at h1
      exact_mod_cast h1
    have hypos : 0 < float64OfInt (s + f) := by linarith
    have hq0 : 0 ≤ float64OfInt s / float64OfInt (s + f) := div_nonneg hx0 (le_of_lt hypos)
    have hq1 : float64OfInt s / float64OfInt (s + f) ≤ ((1 : Int) : ℚ) := by
      push_cast
      rw [div_le_one hypos]
      exact hxy
    have hd0 : 0 ≤ float64Div (float64OfInt s) (float64OfInt (s + f)) := roundFloat64_nonneg hq0
    have hd1 : float64Div (float64OfInt s) (float64OfInt (s + f)) ≤ 1 := by
      have := roundFloat64_mono hq0 hq1
      rw [roundFloat64_intCast 1 (by decide)] at this
      exact_mod_cast this
    constructor
    · exact roundFloat64_nonneg (mul_nonneg hd0 (by norm_num))
    · have hm : float64Div (float64OfInt s) (float64OfInt (s + f)) * 100 ≤ ((100 : Int) : ℚ) := by
        push_cast
        linarith
      have := roundFloat64_mono (mul_nonneg hd0 (by norm_num)) hm
      rw [roundFloat64_intCast 100 (by decide)] at this
      exact_mod_cast this

theorem payflowConversion_80_20 : payflowConversion 80 20 = 80 := by
  have h80 : roundFloat64 ((80 : Int) : ℚ) = 80 := by
    rw [roundFloat64_intCast 80 (by decide)]; norm_num
  have h100 : roundFloat64 ((100 : Int) : ℚ) = 100 := by
    rw [roundFloat64_intCast 100 (by decide)]; norm_num
  have hdiv : roundFloat64 ((80 : ℚ) / 100) = 7205759403792794 / 2 ^ 53 := by
    rw [roundFloat64_of_binade (-53) (by norm_num [abs_of_pos]) (by norm_num [abs_of_pos]),
      roundHalfEven_of_near 7205759403792794 (by norm_num) (by norm_num)]
    norm_num
  have hmul : roundFloat64 ((7205759403792794 : ℚ) / 2 ^ 53 * 100) = 80 := by
    rw [roundFloat64_of_binade (-46) (by norm_num [abs_of_pos]) (by norm_num [abs_of_pos]),
      roundHalfEven_of_near 5629499534213120 (by norm_num) (by norm_num)]
    norm_num
  have hadd : intAdd 80 20 = 100 := by decide
  unfold payflowConversion float64Mul float64Div float64OfInt
  rw [hadd, if_neg (by decide), h80, h100, hdiv, hmul]

/-! ## The join step: inversion -/

theorem joinStep_inv {Http : Type} (successData failureData : datadogResponse)
    (offerIDs : List String) (m : ResultMap) (e : Option (GoError Http))
    (h : joinStep Http successData failureData offerIDs = .ok (some m, e))
    (kr : String × OfferRecord) (hkr : kr ∈ m) :
    ∃ points t0 t1 more rest,
      successData.Series = ⟨points, t0 :: t1 :: more⟩ :: rest ∧
      kr = (ReplaceAllString re t0 "",
        { success := wrapInt (pointSum points)
          failure := wrapInt (matchingSum t0 failureData.Series)
          sum := intAdd (wrapInt (pointSum points)) (wrapInt (matchingSum t0 failureData.Series))
          payflowConversion :=
            payflowConversion (wrapInt (pointSum points)) (wrapInt (matchingSum t0 failureData.Series))
          productType := ReplaceAllString re t1 "" }) := by
  obtain ⟨series0⟩ := successData
  cases series0 with
  | nil => simp [joinStep] at h
  | cons series rest =>
    by_cases hne : offerIDs = []
    · subst hne
      simp [joinStep] at h
      rw [h.1] at hkr
      simp at hkr
    · rw [joinStep_cons _ _ _ _ hne] at h
      by_cases hbad : series.TagSet.length < 2 ∨ (∃ p ∈ series.Pointlist, p.length < 2) ∨
          (∃ fs ∈ failureData.Series, fs.TagSet = []) ∨
          (∃ fs ∈ failureData.Series, fs.TagSet[0]? = series.TagSet[0]? ∧ fs.TagSet ≠ [] ∧
            ∃ p ∈ fs.Pointlist, p.length < 2)
      · obtain ⟨i, n, herr⟩ := joinSeries_error series failureData hbad
        rw [herr] at h
        cases h
      · simp only [not_or, not_exists, not_and, not_lt] at hbad
        obtain ⟨h2, hp, hf0, hfp⟩ := hbad
        obtain ⟨points, tags⟩ := series
        match tags, h2, hfp with
        | t0 :: t1 :: more, _, hfp =>
          have hjs := joinSeries_ok points t0 t1 more failureData (fun p hp2 => hp p hp2)
            (fun fs hfs => hf0 fs hfs)
            (fun fs hfs ht p hp2 => hfp fs hfs (by simpa using ht) (hf0 fs hfs) p hp2)
          rw [hjs] at h
          simp only [Except.ok.injEq, Prod.mk.injEq, Option.some.injEq] at h
          rw [← h.1] at hkr
          exact ⟨points, t0, t1, more, rest, rfl, List.mem_singleton.mp hkr⟩

/-! ## Non-negative point values: lemmas -/

theorem pointSum_nonneg (points : List (List (Option Int)))
    (h : ∀ p ∈ points, (0 : Int) ≤ (p[1]?).join.getD 0) : 0 ≤ pointSum points := by
  induction points with
  | nil => simp [pointSum]
  | cons p rest ih =>
    rw [pointSum_cons]
    have h1 := h p (List.mem_cons_self _ _)
    have h2 := ih (fun q hq => h q (List.mem_cons_of_mem _ hq))
    omega

theorem matchingSum_bounds (tag : String) (l : List SeriesItem)
    (h : ∀ s ∈ l, ∀ p ∈ s.Pointlist, (0 : Int) ≤ (p[1]?).join.getD 0) :
    0 ≤ matchingSum tag l ∧ matchingSum tag l ≤ (l.map (fun s => pointSum s.Pointlist)).sum := by
  induction l with
  | nil => simp [matchingSum]
  | cons fs rest ih =>
    rw [matchingSum_cons, List.map_cons, List.sum_cons]
    have h1 := pointSum_nonneg fs.Pointlist (h fs (List.mem_cons_self _ _))
    have h2 := ih (fun s hs => h s (List.mem_cons_of_mem _ hs))
    split_ifs <;> omega

/-! ## The join step on well-formed input -/

theorem joinStep_ok {Http : Type} (points : List (List (Option Int))) (t0 t1 : String)
    (more : List String) (rest : List SeriesItem) (failureData : datadogResponse)
    (offerIDs : List String) (hne : offerIDs ≠ [])
    (hp : ∀ p ∈ points, 2 ≤ p.length)
    (hf0 : ∀ fs ∈ failureData.Series, fs.TagSet ≠ [])
    (hfp : ∀ fs ∈ failureData.Series, fs.TagSet[0]? = some t0 → ∀ p ∈ fs.Pointlist, 2 ≤ p.length) :
    joinStep Http ⟨⟨points, t0 :: t1 :: more⟩ :: rest⟩ failureData offerIDs =
      .ok (some [(ReplaceAllString re t0 "",
        { success := wrapInt (pointSum points)
          failure := wrapInt (matchingSum t0 failureData.Series)
          sum := intAdd (wrapInt (pointSum points)) (wrapInt (matchingSum t0 failureData.Series))
          payflowConversion :=
            payflowConversion (wrapInt (pointSum points)) (wrapInt (matchingSum t0 failureData.Series))
          productType := ReplaceAllString re t1 "" })], none) := by
  rw [joinStep_cons _ _ _ _ hne, joinSeries_ok points t0 t1 more failureData hp hf0 hfp]

theorem float64_80_100 : float64Mul (float64Div (float64OfInt 80) (float64OfInt 100)) 100 = 80 := by
  have h := payflowConversion_80_20
  unfold payflowConversion at h
  rw [show intAdd 80 20 = 100 by decide, if_neg (by decide)] at h
  exact h

theorem joinStep_sample :
    joinStep Unit sampleSuccess sampleFailure ["42"]
      = .ok (some [("42", ⟨80, 20, 100, 80, "annual"⟩)], none) := by
  unfold sampleSuccess sampleFailure
  rw [joinStep_ok _ _ _ _ _ _ _ (by decide) (by decide) (by decide) (by decide)]
  have h1 : ReplaceAllString re "offer_id:42" "" = "42" := by decide
  have h2 : ReplaceAllString re "product_type:annual" "" = "annual" := by decide
  have h3 : wrapInt (pointSum [[some 1700000000, some 30], [some 1700000060, none],
      [some 1700000120, some 50]]) = 80 := by decide
  have h4 : wrapInt (matchingSum "offer_id:42" sampleFailure.Series) = 20 := by decide
  simp only [sampleFailure] at h4
  rw [h1, h2, h3, h4, payflowConversion_80_20, show intAdd 80 20 = 100 by decide]

/-! ## The claims -/

/-- C1 (the code departs from the claim): with filter `["42"]` and a success result whose
first group is offer 99, the join step returns a map whose only key is `"99"`, an offer
identifier that is not in the filter. -/
theorem joinStep_emits_offer_outside_filter :
    ∃ r : OfferRecord,
      joinStep Unit ⟨[⟨[[some 1700000000, some 1]], ["offer_id:99", "product_type:annual"]⟩]⟩
          ⟨[]⟩ ["42"] = .ok (some [("99", r)], none) ∧
      "99" ∉ ["42"] :=
  ⟨_, rfl, by decide⟩

/-- C2 counterexample: the first success group is tagged
`offer_id:42,product_type:annual` with two-entry points and the filter is `["42"]`, yet with a
failure group that carries no tag the join step panics instead of returning the mapping. -/
theorem joinStep_untagged_failure_group_panics :
    joinStep Unit ⟨[⟨[[some 1700000000, some 80]], ["offer_id:42", "product_type:annual"]⟩]⟩
        ⟨[⟨[[some 1700000000, some 20]], []⟩]⟩ ["42"] = .error (.indexOutOfRange 0 0) ∧
    ¬ ∃ m, joinStep Unit
        ⟨[⟨[[some 1700000000, some 80]], ["offer_id:42", "product_type:annual"]⟩]⟩
        ⟨[⟨[[some 1700000000, some 20]], []⟩]⟩ ["42"] = .ok (some m, none) := by
  have h : joinStep Unit
      ⟨[⟨[[some 1700000000, some 80]], ["offer_id:42", "product_type:annual"]⟩]⟩
      ⟨[⟨[[some 1700000000, some 20]], []⟩]⟩ ["42"] = .error (.indexOutOfRange 0 0) := rfl
  refine ⟨h, ?_⟩
  rintro ⟨m, hm⟩
  rw [h] at hm
  cases hm

/-- C2 (amended): for every non-empty filter, every failure result whose groups all carry at
least one tag and whose groups matching the success group have points of at least two
entries, and every non-empty success result whose first group is tagged `offer_id:<id>`,
`product_type:<type>` (no colon in id and type) with points of at least two entries, the join
step returns without error exactly the one-entry mapping
`id ↦ (success S, failure F, sum S+F, payflowConversion, productType type)`, where `S` is the
sum of the non-null point values of that first group, `F` the sum of the non-null point values
of all failure groups with the same offer-identifier tag, the sums being Go `int` sums (reduced
to 64 bits), and the conversion is `0` if the sum is `0` and `float64(S)/float64(S+F)*100`
otherwise; the success groups after the first play no part. -/
theorem joinStep_first_group (Http : Type) (offerIDs : List String) (failureData : datadogResponse)
    (points : List (List (Option Int))) (id type : String) (rest : List SeriesItem) (S F : Int)
    (hne : offerIDs ≠ [])
    (hid : ':' ∉ id.data) (htype : ':' ∉ type.data)
    (hp : ∀ p ∈ points, 2 ≤ p.length)
    (hf0 : ∀ fs ∈ failureData.Series, fs.TagSet ≠ [])
    (hfp : ∀ fs ∈ failureData.Series, fs.TagSet[0]? = some ("offer_id:" ++ id) →
      ∀ p ∈ fs.Pointlist, 2 ≤ p.length)
    (hS : S = wrapInt (pointSum points))
    (hF : F = wrapInt (matchingSum ("offer_id:" ++ id) failureData.Series)) :
    joinStep Http ⟨⟨points, ["offer_id:" ++ id, "product_type:" ++ type]⟩ :: rest⟩ failureData
        offerIDs =
      .ok (some [(id,
        { success := S
          failure := F
          sum := wrapInt (S + F)
          payflowConversion :=
            if wrapInt (S + F) = 0 then 0
            else float64Mul (float64Div (float64OfInt S) (float64OfInt (wrapInt (S + F)))) 100
          productType := type })], none) := by
  rw [joinStep_ok points _ _ [] rest failureData offerIDs hne hp hf0 hfp, strip_offer_id id hid,
    strip_product_type type htype, ← hS, ← hF]
  rfl

/-- C2, at the scenario of the specification: the group `offer_id:42,product_type:annual`
summing to 80 (one point null), the same failure group summing to 20 and the filter `["42"]`
give `"42" ↦ (80, 20, 100, 80.0, "annual")`. -/
theorem joinStep_first_group_witness :
    joinStep Unit
        ⟨[⟨[[some 1700000000, some 30], [some 1700000060, none], [some 1700000120, some 50]],
          ["offer_id:" ++ "42", "product_type:" ++ "annual"]⟩]⟩
        ⟨[⟨[[some 1700000000, some 20]], ["offer_id:42", "product_type:annual"]⟩]⟩ ["42"] =
      .ok (some [("42", ⟨80, 20, 100, 80, "annual"⟩)], none) := by
  have h := joinStep_first_group Unit ["42"]
    ⟨[⟨[[some 1700000000, some 20]], ["offer_id:42", "product_type:annual"]⟩]⟩
    [[some 1700000000, some 30], [some 1700000060, none], [some 1700000120, some 50]]
    "42" "annual" [] 80 20 (by decide) (by decide) (by decide) (by decide) (by decide)
    (by decide) (by decide) (by decide)
  rw [show wrapInt (80 + 20) = 100 by decide, if_neg (by decide), float64_80_100] at h
  exact h

/-- C3: with an empty filter list the join step returns, for every success result and every
failure result (malformed ones included), no error and a mapping without any record (the nil
map when the success result is empty, the empty map otherwise). -/
theorem joinStep_empty_filter (Http : Type) (successData failureData : datadogResponse) :
    ∃ m : Option ResultMap,
      joinStep Http successData failureData [] = .ok (m, none) ∧ entries m = [] := by
  unfold joinStep
  cases successData.Series with
  | nil => exact ⟨none, rfl, rfl⟩
  | cons s rest => exact ⟨some [], by simp, rfl⟩

/-- C4 counterexample: with the point value `2^62` in the success group and in the matching
failure group, the record holds success `2^62` and failure `2^62`, both non-negative with a
positive total, and the stored conversion is `-50`, whereas `s/(s+f)*100` is `50`. -/
theorem conversion_overflow_counterexample :
    ∃ r : OfferRecord,
      joinStep Unit
          ⟨[⟨[[some 1700000000, some 4611686018427387904]], ["offer_id:1", "product_type:a"]⟩]⟩
          ⟨[⟨[[some 1700000000, some 4611686018427387904]], ["offer_id:1", "product_type:a"]⟩]⟩
          ["1"] = .ok (some [("1", r)], none) ∧
      0 ≤ r.success ∧ 0 ≤ r.failure ∧ 0 < r.success + r.failure ∧
      r.payflowConversion = -50 ∧
      float64Mul (float64Div (float64OfInt r.success) (float64OfInt (r.success + r.failure))) 100
        = 50 := by
  have hS : wrapInt (pointSum [[some 1700000000, some 4611686018427387904]])
      = 4611686018427387904 := by decide
  have hF : wrapInt (matchingSum "offer_id:1"
      [⟨[[some 1700000000, some 4611686018427387904]], ["offer_id:1", "product_type:a"]⟩])
      = 4611686018427387904 := by decide
  have e1 : roundFloat64 ((4611686018427387904 : Int) : ℚ) = 4611686018427387904 := by
    have := roundFloat64_exact 1 62 (by decide)
    norm_num at this ⊢
    exact this
  have e2 : roundFloat64 ((-9223372036854775808 : Int) : ℚ) = -9223372036854775808 := by
    have := roundFloat64_exact (-1) 63 (by decide)
    norm_num at this ⊢
    exact this
  have e3 : roundFloat64 ((9223372036854775808 : Int) : ℚ) = 9223372036854775808 := by
    have := roundFloat64_exact 1 63 (by decide)
    norm_num at this ⊢
    exact this
  have e4 : roundFloat64 ((4611686018427387904 : ℚ) / -9223372036854775808) = -(1 / 2) := by
    have := roundFloat64_exact (-1) (-1) (by decide)
    norm_num at this ⊢
    exact this
  have e5 : roundFloat64 ((4611686018427387904 : ℚ) / 9223372036854775808) = 1 / 2 := by
    have := roundFloat64_exact 1 (-1) (by decide)
    norm_num at this ⊢
    exact this
  have e6 : roundFloat64 (-(1 / 2) * 100) = -50 := by
    have := roundFloat64_intCast (-50) (by decide)
    norm_num at this ⊢
    exact this
  have e7 : roundFloat64 (1 / 2 * 100) = 50 := by
    have := roundFloat64_intCast 50 (by decide)
    norm_num at this ⊢
    exact this
  have hconv : payflowConversion 4611686018427387904 4611686018427387904 = -50 := by
    unfold payflowConversion float64Mul float64Div float64OfInt
    rw [show intAdd 4611686018427387904 4611686018427387904 = -9223372036854775808 by decide,
      if_neg (by decide), e1, e2, e4, e6]
  refine ⟨⟨4611686018427387904, 4611686018427387904, -9223372036854775808, -50, "a"⟩,
    ?_, by decide, by decide, by decide, rfl, ?_⟩
  · rw [joinStep_ok _ _ _ _ _ _ _ (by decide) (by decide) (by decide) (by decide), hS, hF, hconv,
      show ReplaceAllString re "offer_id:1" "" = "1" by decide,
      show ReplaceAllString re "product_type:a" "" = "a" by decide,
      show intAdd 4611686018427387904 4611686018427387904 = -9223372036854775808 by decide]
  · show float64Mul (float64Div (float64OfInt 4611686018427387904)
        (float64OfInt (4611686018427387904 + 4611686018427387904))) 100 = 50
    unfold float64Mul float64Div float64OfInt
    rw [show (4611686018427387904 : Int) + 4611686018427387904 = 9223372036854775808 by decide,
      e1, e3, e5, e7]

/-- C4 (amended): in every record stored by the join step whose success count `s` and
failure count `f` are non-negative with a total `s + f` below `2^63` (the total fits a Go
`int`), the conversion percentage is exactly `0` when `s + f = 0` (no division is performed)
and exactly `float64(s) / float64(s + f) * 100`, divided first and then multiplied, when
`s + f > 0`. -/
theorem conversion_formula (Http : Type) (successData failureData : datadogResponse)
    (offerIDs : List String) (m : ResultMap) (e : Option (GoError Http))
    (kr : String × OfferRecord)
    (h : joinStep Http successData failureData offerIDs = .ok (some m, e)) (hkr : kr ∈ m)
    (hs : 0 ≤ kr.2.success) (hf : 0 ≤ kr.2.failure) (hfit : kr.2.success + kr.2.failure < 2 ^ 63) :
    (kr.2.success + kr.2.failure = 0 → kr.2.payflowConversion = 0) ∧
    (0 < kr.2.success + kr.2.failure →
      kr.2.payflowConversion =
        float64Mul (float64Div (float64OfInt kr.2.success)
          (float64OfInt (kr.2.success + kr.2.failure))) 100) := by
  obtain ⟨points, t0, t1, more, rest, _, hrec⟩ := joinStep_inv _ _ _ _ _ h kr hkr
  have hc : kr.2.payflowConversion = payflowConversion kr.2.success kr.2.failure := by
    rw [hrec]
  rw [hc]
  unfold payflowConversion
  rw [intAdd_of_fits _ _ (by omega) hfit]
  constructor
  · intro h0
    rw [if_pos h0]
  · intro hpos
    rw [if_neg (by omega)]

/-- C4 (amended), at the scenario of the specification: the record `(80, 20, 100, 80.0)`
holds `float64(80) / float64(80 + 20) * 100`. -/
theorem conversion_formula_witness :
    (80 : ℚ) = float64Mul (float64Div (float64OfInt 80) (float64OfInt (80 + 20))) 100 :=
  (conversion_formula Unit sampleSuccess sampleFailure ["42"]
    [("42", ⟨80, 20, 100, 80, "annual"⟩)] none ("42", ⟨80, 20, 100, 80, "annual"⟩)
    joinStep_sample (List.mem_singleton.mpr rfl) (by decide) (by decide) (by decide)).2
    (by decide)

/-- C5 counterexample: two failure groups carry the offer-identifier tag of the success
group, summing to 1 and to 2; the record's failure count is 3, not the sum 2 of the last
matching group. -/
theorem failure_last_group_counterexample :
    ∃ r : OfferRecord,
      joinStep Unit sampleSuccess
          ⟨[⟨[[some 1700000000, some 1]], ["offer_id:42", "product_type:annual"]⟩,
            ⟨[[some 1700000000, some 2]], ["offer_id:42", "product_type:annual"]⟩]⟩ ["42"]
        = .ok (some [("42", r)], none) ∧
      r.failure = 3 ∧ pointSum [[some 1700000000, some 2]] = 2 ∧
      r.failure ≠ pointSum [[some 1700000000, some 2]] :=
  ⟨_, rfl, by decide, by decide, by decide⟩

/-- C5 (amended): for every non-empty filter and every success group, the failure count of
the emitted record is the sum (a Go `int` sum, reduced to 64 bits) of the non-null point
values of all failure groups whose offer-identifier tag equals the success group's; every
matching group contributes, not only the last one. -/
theorem failure_counts_all_matching_groups (Http : Type) (series : SeriesItem)
    (rest : List SeriesItem) (failureData : datadogResponse) (offerIDs : List String)
    (m : ResultMap) (e : Option (GoError Http)) (kr : String × OfferRecord) (tag : String)
    (_hne : offerIDs ≠ [])
    (h : joinStep Http ⟨series :: rest⟩ failureData offerIDs = .ok (some m, e)) (hkr : kr ∈ m)
    (htag : series.TagSet[0]? = some tag) :
    kr.2.failure = wrapInt (matchingSum tag failureData.Series) := by
  obtain ⟨points, t0, t1, more, rest2, hser, hrec⟩ := joinStep_inv _ _ _ _ _ h kr hkr
  simp only [List.cons.injEq] at hser
  rw [hser.1] at htag
  simp only [List.getElem?_cons_zero, Option.some.injEq] at htag
  rw [hrec, htag]

/-- C5 (amended), at the two matching failure groups summing to 1 and 2: the failure count
is `1 + 2`. -/
theorem failure_counts_all_matching_groups_witness :
    (3 : Int) = wrapInt (matchingSum "offer_id:42"
      [⟨[[some 1700000000, some 1]], ["offer_id:42", "product_type:annual"]⟩,
       ⟨[[some 1700000000, some 2]], ["offer_id:42", "product_type:annual"]⟩]) :=
  failure_counts_all_matching_groups Unit
    ⟨[[some 1700000000, some 30], [some 1700000060, none], [some 1700000120, some 50]],
      ["offer_id:42", "product_type:annual"]⟩ []
    ⟨[⟨[[some 1700000000, some 1]], ["offer_id:42", "product_type:annual"]⟩,
      ⟨[[some 1700000000, some 2]], ["offer_id:42", "product_type:annual"]⟩]⟩ ["42"]
    [("42", ⟨80, 3, 83, payflowConversion 80 3, "annual"⟩)] none
    ("42", ⟨80, 3, 83, payflowConversion 80 3, "annual"⟩) "offer_id:42"
    (by decide) rfl (List.mem_singleton.mpr rfl) rfl

/-- C6 (the code departs from the claim): on the tag `offer_id:a:b`, whose value `a:b`
holds a colon, the replacement removes `offer_id:a:` and leaves `b`, not the value `a:b`. -/
theorem ReplaceAllString_strips_past_prefix :
    ReplaceAllString re "offer_id:a:b" "" = "b" ∧ ReplaceAllString re "offer_id:a:b" "" ≠ "a:b" := by
  decide

/-- C7: for every non-empty filter and all success and failure results whose non-null point
values are non-negative and summed as exact integers (the sum of the first success group's
values plus the sum of the values of the failure groups with its offer-identifier tag, which
is all the join step adds up, stays below `2^63`), every record emitted by the join step has a
non-negative success count, a non-negative failure count and a conversion percentage between
0 and 100 inclusive. -/
theorem records_within_bounds (Http : Type) (successData failureData : datadogResponse)
    (offerIDs : List String) (m : ResultMap) (e : Option (GoError Http))
    (kr : String × OfferRecord)
    (_hne : offerIDs ≠ [])
    (hs : NonNegValues successData) (hf : NonNegValues failureData)
    (hexact : ∀ series tag, successData.Series.head? = some series →
      series.TagSet[0]? = some tag →
      pointSum series.Pointlist + matchingSum tag failureData.Series < 2 ^ 63)
    (h : joinStep Http successData failureData offerIDs = .ok (some m, e)) (hkr : kr ∈ m) :
    0 ≤ kr.2.success ∧ 0 ≤ kr.2.failure ∧
      0 ≤ kr.2.payflowConversion ∧ kr.2.payflowConversion ≤ 100 := by
  obtain ⟨points, t0, t1, more, rest, hser, hrec⟩ := joinStep_inv _ _ _ _ _ h kr hkr
  have hp0 : 0 ≤ pointSum points := by
    apply pointSum_nonneg
    intro p hp
    exact hs ⟨points, t0 :: t1 :: more⟩ (by rw [hser]; exact List.mem_cons_self _ _) p hp
  obtain ⟨hm0, _⟩ := matchingSum_bounds t0 failureData.Series hf
  have hfit : pointSum points + matchingSum t0 failureData.Series < 2 ^ 63 :=
    hexact ⟨points, t0 :: t1 :: more⟩ t0 (by rw [hser]; rfl) rfl
  have hS : wrapInt (pointSum points) = pointSum points :=
    wrapInt_of_fits _ (by omega) (by omega)
  have hF : wrapInt (matchingSum t0 failureData.Series) = matchingSum t0 failureData.Series :=
    wrapInt_of_fits _ (by omega) (by omega)
  have hb := payflowConversion_bounds (pointSum points) (matchingSum t0 failureData.Series)
    hp0 hm0 hfit
  rw [hrec]
  simp only [hS, hF]
  exact ⟨hp0, hm0, hb.1, hb.2⟩

/-- C7, at a success result whose second group and a failure result whose non-matching
group hold values near `2^62`: the sums the join step forms, 10 and 5, are exact, and the
record `(10, 5, 15)` lies within the bounds. -/
theorem records_within_bounds_witness :
    ∃ r : OfferRecord,
      joinStep Unit boundarySuccess boundaryFailure ["1"] = .ok (some [("1", r)], none) ∧
      r.success = 10 ∧ r.failure = 5 ∧
      0 ≤ r.success ∧ 0 ≤ r.failure ∧ 0 ≤ r.payflowConversion ∧ r.payflowConversion ≤ 100 := by
  have hj : joinStep Unit boundarySuccess boundaryFailure ["1"]
      = .ok (some [("1", ⟨10, 5, 15, payflowConversion 10 5, "a"⟩)], none) := by
    unfold boundarySuccess boundaryFailure
    rw [joinStep_ok _ _ _ _ _ _ _ (by decide) (by decide) (by decide) (by decide)]
    have h1 : ReplaceAllString re "offer_id:1" "" = "1" := by decide
    have h2 : ReplaceAllString re "product_type:a" "" = "a" := by decide
    have h3 : wrapInt (pointSum [[some 1700000000, some 10]]) = 10 := by decide
    have h4 : wrapInt (matchingSum "offer_id:1" boundaryFailure.Series) = 5 := by decide
    simp only [boundaryFailure] at h4
    rw [h1, h2, h3, h4, show intAdd 10 5 = 15 by decide]
  have hb := records_within_bounds Unit boundarySuccess boundaryFailure ["1"]
    [("1", ⟨10, 5, 15, payflowConversion 10 5, "a"⟩)] none
    ("1", ⟨10, 5, 15, payflowConversion 10 5, "a"⟩)
    (by decide) (by unfold NonNegValues boundarySuccess; decide)
    (by unfold NonNegValues boundaryFailure; decide)
    (by
      intro series tag hhead htag
      have hs1 : series = ⟨[[some 1700000000, some 10]], ["offer_id:1", "product_type:a"]⟩ :=
        (Option.some.inj hhead).symm
      subst hs1
      have ht1 : tag = "offer_id:1" := (Option.some.inj htag).symm
      subst ht1
      decide)
    hj (List.mem_singleton.mpr rfl)
  exact ⟨_, hj, rfl, rfl, hb⟩

/-- C8: whenever `DD_API_KEY` or `DD_APP_KEY` is empty or unset (`os.Getenv` gives the empty
string), `fetchAllData` returns the nil map with the configuration error, for every lookback
window and filter list, and leaves the log of backend calls as it was: no query is issued. -/
theorem fetchAllData_missing_credentials {Resp Http : Type} (P : Platform Resp Http)
    (numberOfDaysBack : Int) (offerIDs : List String) (w : World)
    (h : P.Getenv "DD_API_KEY" = "" ∨ P.Getenv "DD_APP_KEY" = "") :
    fetchAllData P numberOfDaysBack offerIDs w =
      (.ok (none, some (.errorf "failed to fetch environment variables" none none)), w) := by
  unfold fetchAllData
  rw [if_pos h]

/-- C8, on a platform without credentials: a lookback of 7 days with filter `["42"]` returns
the configuration error and the empty call log stays empty. -/
theorem fetchAllData_missing_credentials_witness :
    (barePlatform.Getenv "DD_API_KEY" = "" ∨ barePlatform.Getenv "DD_APP_KEY" = "") ∧
    fetchAllData barePlatform 7 ["42"] ⟨[]⟩ =
      (.ok (none, some (.errorf "failed to fetch environment variables" none none)), ⟨[]⟩) :=
  ⟨Or.inl rfl, fetchAllData_missing_credentials barePlatform 7 ["42"] ⟨[]⟩ (Or.inl rfl)⟩

/-- C9: the result returned by `queryAllMetrics` is the "invalid category" error with the
empty response and no response handle if and only if the category is neither `"success"` nor
`"failure"`; in that case the call log is untouched (the backend is not invoked), and for
those two values exactly one call is appended to the log, with the query string
`sum:prometheus.payflow_subscription_<category>_total{env:prd} by {offer_id,
product_type}.as_count()`, and the result is the backend's answer (its response, or the
wrapped error with the empty response). -/
theorem queryAllMetrics_category {Resp Http : Type} (P : Platform Resp Http)
    (numberOfDaysBack : Int) (category : String) (w : World) :
    ((queryAllMetrics P numberOfDaysBack category w).1 =
        (P.emptyResponse, none, some (.errorf "invalid category" none none))
      ↔ (category ≠ "success" ∧ category ≠ "failure")) ∧
    ((category ≠ "success" ∧ category ≠ "failure") →
      (queryAllMetrics P numberOfDaysBack category w).2 = w) ∧
    ((category = "success" ∨ category = "failure") →
      (queryAllMetrics P numberOfDaysBack category w).2.calls =
        w.calls ++ [{ start := P.unixDaysBack numberOfDaysBack, stop := P.unixNow,
                      query := "sum:prometheus.payflow_subscription_" ++ category ++
                        "_total\x7benv:prd\x7d by \x7boffer_id, product_type\x7d.as_count()" }] ∧
      (queryAllMetrics P numberOfDaysBack category w).1 =
        match P.QueryMetrics w.calls
          { start := P.unixDaysBack numberOfDaysBack, stop := P.unixNow,
            query := "sum:prometheus.payflow_subscription_" ++ category ++
              "_total\x7benv:prd\x7d by \x7boffer_id, product_type\x7d.as_count()" } with
        | (_, r, some err) =>
          (P.emptyResponse, r,
            some (.errorf "failed to get data from payflowV2: %v: %w" (some r) (some err)))
        | (response, r, none) => (response, r, none)) := by
  have valid : (category = "success" ∨ category = "failure") →
      (queryAllMetrics P numberOfDaysBack category w).2.calls =
        w.calls ++ [{ start := P.unixDaysBack numberOfDaysBack, stop := P.unixNow,
                      query := metricsQuery category }] ∧
      (queryAllMetrics P numberOfDaysBack category w).1 =
        match P.QueryMetrics w.calls
          { start := P.unixDaysBack numberOfDaysBack, stop := P.unixNow,
            query := metricsQuery category } with
        | (_, r, some err) =>
          (P.emptyResponse, r,
            some (.errorf "failed to get data from payflowV2: %v: %w" (some r) (some err)))
        | (response, r, none) => (response, r, none) := by
    intro h
    unfold queryAllMetrics
    rw [if_pos h]
    rcases hq : P.QueryMetrics w.calls
      { start := P.unixDaysBack numberOfDaysBack, stop := P.unixNow,
        query := metricsQuery category } with ⟨resp, r, _ | err⟩ <;> simp [hq]
  have invalid : (category ≠ "success" ∧ category ≠ "failure") →
      queryAllMetrics P numberOfDaysBack category w =
        ((P.emptyResponse, none, some (.errorf "invalid category" none none)), w) := by
    intro h
    unfold queryAllMetrics
    rw [if_neg (by rintro (h1 | h1); exact h.1 h1; exact h.2 h1)]
  refine ⟨⟨fun h => ?_, fun h => ?_⟩, fun h => ?_, valid⟩
  · by_contra hc
    have hc2 : category = "success" ∨ category = "failure" := by
      by_cases h1 : category = "success"
      · exact Or.inl h1
      · by_cases h2 : category = "failure"
        · exact Or.inr h2
        · exact absurd ⟨h1, h2⟩ hc
    have h3 := (valid hc2).2
    rw [h] at h3
    rcases hq : P.QueryMetrics w.calls
      { start := P.unixDaysBack numberOfDaysBack, stop := P.unixNow,
        query := metricsQuery category } with ⟨resp, r, _ | err⟩
    · rw [hq] at h3
      simp at h3
    · rw [hq] at h3
      simp only [Prod.mk.injEq, Option.some.injEq, GoError.errorf.injEq] at h3
      exact absurd h3.2.2.1 (by decide)
  · rw [invalid h]
  · rw [invalid h]

/-- C9, on a concrete platform: the category `"Success"` is rejected without a call, and the
category `"success"` issues the one query for the success counter and returns the backend's
answer, not the "invalid category" error. -/
theorem queryAllMetrics_category_witness :
    (queryAllMetrics barePlatform 7 "Success" ⟨[]⟩).1 =
      ("", none, some (.errorf "invalid category" none none)) ∧
    (queryAllMetrics barePlatform 7 "Success" ⟨[]⟩).2 = ⟨[]⟩ ∧
    (queryAllMetrics barePlatform 7 "success" ⟨[]⟩).2.calls =
      [{ start := 1700000000 - 86400 * 7, stop := 1700000000,
         query := "sum:prometheus.payflow_subscription_success_total\x7benv:prd\x7d by \x7boffer_id, product_type\x7d.as_count()" }] ∧
    (queryAllMetrics barePlatform 7 "success" ⟨[]⟩).1 = ("", some (), none) :=
  ⟨(queryAllMetrics_category barePlatform 7 "Success" ⟨[]⟩).1.mpr ⟨by decide, by decide⟩,
   (queryAllMetrics_category barePlatform 7 "Success" ⟨[]⟩).2.1 ⟨by decide, by decide⟩,
   ((queryAllMetrics_category barePlatform 7 "success" ⟨[]⟩).2.2 (Or.inl rfl)).1,
   ((queryAllMetrics_category barePlatform 7 "success" ⟨[]⟩).2.2 (Or.inl rfl)).2⟩

/-- C10: for every non-empty filter and non-empty success result the join step panics with
an index out of range if and only if the first success series has fewer than two tags, or one
of its points has fewer than two entries, or some failure series has no tag, or some failure
series whose first tag equals the first success series' first tag has a point with fewer than
two entries.  In particular an empty point list is tolerated and sums to 0, and when every
series has exactly two tags and every point exactly two entries the join step returns. -/
theorem joinStep_panics_iff (Http : Type) (series : SeriesItem) (rest : List SeriesItem)
    (failureData : datadogResponse) (offerIDs : List String) (hne : offerIDs ≠ []) :
    ((∃ i n, joinStep Http ⟨series :: rest⟩ failureData offerIDs
          = .error (.indexOutOfRange i n)) ↔
      (series.TagSet.length < 2 ∨ (∃ p ∈ series.Pointlist, p.length < 2) ∨
        (∃ fs ∈ failureData.Series, fs.TagSet = []) ∨
        (∃ fs ∈ failureData.Series, fs.TagSet[0]? = series.TagSet[0]? ∧ fs.TagSet ≠ [] ∧
          ∃ p ∈ fs.Pointlist, p.length < 2))) ∧
    (series.Pointlist = [] → 2 ≤ series.TagSet.length →
      (∀ fs ∈ failureData.Series, fs.TagSet ≠ []) →
      (∀ fs ∈ failureData.Series, fs.TagSet[0]? = series.TagSet[0]? →
        ∀ p ∈ fs.Pointlist, 2 ≤ p.length) →
      ∃ key r, joinStep Http ⟨series :: rest⟩ failureData offerIDs
          = .ok (some [(key, r)], none) ∧ r.success = 0) ∧
    ((series.TagSet.length = 2 ∧ ∀ p ∈ series.Pointlist, p.length = 2) →
      (∀ fs ∈ failureData.Series, fs.TagSet.length = 2 ∧ ∀ p ∈ fs.Pointlist, p.length = 2) →
      ∃ m, joinStep Http ⟨series :: rest⟩ failureData offerIDs = .ok (some m, none)) := by
  have good : 2 ≤ series.TagSet.length → (∀ p ∈ series.Pointlist, 2 ≤ p.length) →
      (∀ fs ∈ failureData.Series, fs.TagSet ≠ []) →
      (∀ fs ∈ failureData.Series, fs.TagSet[0]? = series.TagSet[0]? →
        ∀ p ∈ fs.Pointlist, 2 ≤ p.length) →
      ∃ key r, joinStep Http ⟨series :: rest⟩ failureData offerIDs
          = .ok (some [(key, r)], none) ∧ r.success = wrapInt (pointSum series.Pointlist) := by
    intro h2 hp hf0 hfp
    obtain ⟨points, tags⟩ := series
    match tags, h2, hfp with
    | t0 :: t1 :: more, _, hfp =>
      have hfp2 : ∀ fs ∈ failureData.Series, fs.TagSet[0]? = some t0 →
          ∀ p ∈ fs.Pointlist, 2 ≤ p.length := fun fs hfs ht => hfp fs hfs (by simpa using ht)
      have hjs := joinSeries_ok points t0 t1 more failureData hp hf0 hfp2
      have hst := @joinStep_cons Http ⟨points, t0 :: t1 :: more⟩ rest failureData
        offerIDs hne
      rw [hjs] at hst
      exact ⟨_, _, hst, rfl⟩
  refine ⟨⟨?_, ?_⟩, ?_, ?_⟩
  · rintro ⟨i, n, herr⟩
    by_contra hc
    simp only [not_or, not_exists, not_and, not_lt] at hc
    obtain ⟨h2, hp, hf0, hfp⟩ := hc
    obtain ⟨key, r, hok, _⟩ := good h2 (fun p hp2 => hp p hp2) (fun fs hfs => hf0 fs hfs)
      (fun fs hfs ht p hp2 => hfp fs hfs ht (hf0 fs hfs) p hp2)
    rw [hok] at herr
    cases herr
  · intro h
    obtain ⟨i, n, herr⟩ := joinSeries_error series failureData h
    exact ⟨i, n, by rw [joinStep_cons _ _ _ _ hne, herr]⟩
  · intro hnil h2 hf0 hfp
    obtain ⟨key, r, hok, hr⟩ := good h2 (by simp [hnil]) hf0 hfp
    refine ⟨key, r, hok, ?_⟩
    rw [hr, hnil]
    decide
  · rintro ⟨h2, hp⟩ hf
    obtain ⟨key, r, hok, _⟩ := good (by omega) (fun p hp2 => by rw [hp p hp2])
      (fun fs hfs => by
        have := (hf fs hfs).1
        intro e
        rw [e] at this
        simp at this)
      (fun fs hfs _ p hp2 => by rw [(hf fs hfs).2 p hp2])
    exact ⟨_, hok⟩

/-- C10, at a first success series with a single tag: the join step panics. -/
theorem joinStep_panics_iff_witness :
    ["42"] ≠ ([] : List String) ∧
    ∃ i n, joinStep Unit ⟨[⟨[[some 1700000000, some 80]], ["offer_id:42"]⟩]⟩ sampleFailure ["42"]
      = .error (.indexOutOfRange i n) :=
  ⟨by decide,
   (joinStep_panics_iff Unit ⟨[[some 1700000000, some 80]], ["offer_id:42"]⟩ [] sampleFailure
      ["42"] (by decide)).1.mpr (Or.inl (by decide))⟩

end DatadogMetrics
